import Mathlib

/-!
# TrafficLight.cpp: message queue and traffic-light phase cycle

A shallow embedding of `src/src/TrafficLight.cpp`.

* `MessageQueue<T>` is its `std::deque<T> _queue`; the mutex and the condition
  variable carry no data. `send` and `receive` are the bodies executed under
  the lock, so each is one atomic step on the queue contents.
* `TrafficLight` is the triple of its fields. The infinite loops of
  `waitForGreen` and `cycleThroughPhases` are embedded by their loop bodies
  (`waitForGreenIteration`, `cycleIteration`) and by runs of finitely many
  iterations.
* `std::chrono::system_clock::now()` is an input: the readings of the clock are
  integers counting clock ticks, and the number of ticks in a second
  (`system_clock::period`, fixed by the C++ implementation) is the parameter
  `ticksPerSecond`. The loop is embedded for any value `cycle_duration`; the
  draw of lines 96-99 is `TrafficLight.drawnCycleDuration`, a function of the
  raw output of the random engine. Clock readings and their differences are
  taken to fit the 64-bit representation of the clock, so the integers are
  unbounded here.
-/

/-! ## Data model -/

/-- Modelled from the spec: the enumeration `TrafficLightPhase` is declared in
`TrafficLight.h`, which is not among the sources. The spec's data model gives a
phase exactly two members; the source names them `red` and `green`
(lines 46, 66, 125, 129). -/
inductive TrafficLightPhase where
  | red
  | green
  deriving DecidableEq, Repr

/-- Modelled from the spec: the class `MessageQueue<T>` is declared in
`TrafficLight.h`, which is not among the sources. The spec's queue owns an
ordered sequence of `T`, appended at the tail and removed from the head; the
source uses the member `_queue` through `empty`, `front`, `pop_front` and
`emplace_back`. The list is the content of `_queue`, head first. The members
`_mutex` and `_cond` carry no data. -/
structure MessageQueue (T : Type) where
  _queue : List T
  deriving DecidableEq, Repr

/-- A default-constructed `MessageQueue<T>`, as made by
`std::make_unique<MessageQueue<TrafficLightPhase>>()` at line 47: the sequence
is empty. -/
def MessageQueue.empty {T : Type} : MessageQueue T :=
  { _queue := [] }

/-- The method `MessageQueue<T>::send` (lines 26-38): `_queue.emplace_back(std::move(msg))`
under the lock. The notification changes no data. -/
def MessageQueue.send {T : Type} (q : MessageQueue T) (msg : T) : MessageQueue T :=
  { _queue := q._queue ++ [msg] }

/-- The method `MessageQueue<T>::receive` (lines 8-24), one evaluation of the wait
predicate `!_queue.empty()` under the lock. When the predicate is false the
caller stays suspended in `_cond.wait` and the queue is not touched: the result
is `none` with the queue as it was. When it is true the front element is moved
out, `pop_front` removes it, and it is returned. -/
def MessageQueue.receive {T : Type} (q : MessageQueue T) : Option T × MessageQueue T :=
  match q._queue with
  | [] => (none, q)
  | message :: rest => (some message, { _queue := rest })

/-- Calls `send` once for each value of the list, in order. -/
def MessageQueue.sendAll {T : Type} (q : MessageQueue T) (msgs : List T) : MessageQueue T :=
  msgs.foldl MessageQueue.send q

/-- Calls `receive` `n` times in a row on one thread, collecting the returned
values. The result is `none` when one of the calls finds the queue empty: with
no other thread sending, that call never returns. -/
def MessageQueue.receiveN {T : Type} : Nat → MessageQueue T → Option (List T × MessageQueue T)
  | 0, q => some ([], q)
  | n + 1, q =>
    match q.receive with
    | (none, _) => none
    | (some message, q1) =>
      match MessageQueue.receiveN n q1 with
      | none => none
      | some (rest, q2) => some (message :: rest, q2)

/-- Keeps re-evaluating the wait predicate of a suspended `receive` `n` times
(spurious wake-ups) and returns the queue afterwards. -/
def MessageQueue.wakeups {T : Type} : Nat → MessageQueue T → MessageQueue T
  | 0, q => q
  | n + 1, q => MessageQueue.wakeups n q.receive.2

/-- One operation on a queue: a `send` of a value, or a `receive`. -/
inductive QueueOp (T : Type) where
  | send (msg : T)
  | receive
  deriving DecidableEq, Repr

/-- The values passed to `send` by a sequence of operations, in order. -/
def QueueOp.sent {T : Type} : List (QueueOp T) → List T
  | [] => []
  | QueueOp.send msg :: ops => msg :: QueueOp.sent ops
  | QueueOp.receive :: ops => QueueOp.sent ops

/-- Runs a sequence of queue operations. The state is the list of values the
receives have returned so far together with the queue. A `receive` on an empty
queue does not return, and the run has no result (`none`). -/
def QueueOp.run {T : Type} : List (QueueOp T) → List T × MessageQueue T →
    Option (List T × MessageQueue T)
  | [], st => some st
  | QueueOp.send msg :: ops, (got, q) => QueueOp.run ops (got, q.send msg)
  | QueueOp.receive :: ops, (got, q) =>
    match q.receive with
    | (none, _) => none
    | (some message, q1) => QueueOp.run ops (got ++ [message], q1)

/-- Modelled from the spec: the class `TrafficLight` is declared in
`TrafficLight.h`, which is not among the sources. The spec's light owns one
phase, an identifying integer and one queue; the source assigns the fields
`_intersectionID`, `_currentPhase` and `_trafficQueue` (lines 45-47). -/
structure TrafficLight where
  _intersectionID : Int
  _currentPhase : TrafficLightPhase
  _trafficQueue : MessageQueue TrafficLightPhase
  deriving DecidableEq, Repr

/-- The constructor `TrafficLight::TrafficLight(int intersectionID)`, named
`construct` here because the structure already bears the name
(lines 43-51). -/
def TrafficLight.construct (intersectionID : Int) : TrafficLight :=
  { _intersectionID := intersectionID
    _currentPhase := TrafficLightPhase.red
    _trafficQueue := MessageQueue.empty }

/-- The method `TrafficLight::getCurrentPhase` (lines 76-79). -/
def TrafficLight.getCurrentPhase (tl : TrafficLight) : TrafficLightPhase :=
  tl._currentPhase

/-- What one pass through the loop of `waitForGreen` did. -/
inductive WaitOutcome where
  | blocked
  | discarded
  | returned
  deriving DecidableEq, Repr

/-- One pass through the `while (true)` loop of `TrafficLight::waitForGreen`
(lines 61-71): after the 100 ms sleep, `_trafficQueue->receive()` is called.
On an empty queue the call does not return (`blocked`, nothing changes). The
received value is compared with `TrafficLightPhase::green`: on `green` the loop
is left and the method returns; any other value is dropped and the loop
repeats. -/
def TrafficLight.waitForGreenIteration (tl : TrafficLight) : WaitOutcome × TrafficLight :=
  match tl._trafficQueue.receive with
  | (none, _) => (WaitOutcome.blocked, tl)
  | (some message, q1) =>
    if message = TrafficLightPhase.green then
      (WaitOutcome.returned, { tl with _trafficQueue := q1 })
    else
      (WaitOutcome.discarded, { tl with _trafficQueue := q1 })

/-- The method `TrafficLight::waitForGreen` (lines 55-73) run on its own thread with no
concurrent sender, for at most `fuel` passes through its loop. The result is
the light at the moment the method returns; `none` when a `receive` finds the
queue empty (the call stays blocked) or when the fuel is used up. -/
def TrafficLight.waitForGreen : Nat → TrafficLight → Option TrafficLight
  | 0, _ => none
  | fuel + 1, tl =>
    match tl.waitForGreenIteration with
    | (WaitOutcome.returned, tl1) => some tl1
    | (WaitOutcome.discarded, tl1) => TrafficLight.waitForGreen fuel tl1
    | (WaitOutcome.blocked, _) => none

/-- The value the `switch` of lines 123-136 assigns to `_currentPhase`. The
`default` branch is not reachable for a two-valued enumeration. -/
def TrafficLightPhase.toggled : TrafficLightPhase → TrafficLightPhase
  | TrafficLightPhase.red => TrafficLightPhase.green
  | TrafficLightPhase.green => TrafficLightPhase.red

/-- Lines 123-136: the assignment to `_currentPhase`. -/
def TrafficLight.togglePhase (tl : TrafficLight) : TrafficLight :=
  { tl with _currentPhase := tl._currentPhase.toggled }

/-- Line 139: `_trafficQueue->send(std::move(_currentPhase))`. Moving from a
field of enumeration type copies it, so the field keeps its value. -/
def TrafficLight.sendUpdate (tl : TrafficLight) : TrafficLight :=
  { tl with _trafficQueue := tl._trafficQueue.send tl._currentPhase }

/-- Lines 122-139, the body of the `if` without the stop watch: one flip of the
timer. -/
def TrafficLight.toggleAndSend (tl : TrafficLight) : TrafficLight :=
  tl.togglePhase.sendUpdate

/-- The state of a running `cycleThroughPhases`: the light and the local
variable `lastUpdate`. -/
structure CycleState where
  light : TrafficLight
  lastUpdate : Int
  deriving DecidableEq, Repr

/-- The record of one flip: the value the `switch` assigned to
`_currentPhase`, the value of the field handed to `send`, the clock reading of
line 118 that triggered the flip and the clock reading of line 142 that became
the new `lastUpdate`. The `send` happens between the two readings. -/
structure Emission where
  written : TrafficLightPhase
  sent : TrafficLightPhase
  polled : Int
  reset : Int
  deriving DecidableEq, Repr

/-- One pass through the `while (true)` loop of `cycleThroughPhases`
(lines 112-144). `now` is the clock reading of line 118 and `now2` the one of
line 142 (read only when the phase flips). `duration_cast<seconds>` truncates
toward zero, which is `Int.tdiv` by the number of ticks in a second. -/
def TrafficLight.cycleIteration (ticksPerSecond cycle_duration : Int) (now now2 : Int)
    (s : CycleState) : CycleState × Option Emission :=
  let timeSinceLastUpdate := (now - s.lastUpdate).tdiv ticksPerSecond
  if timeSinceLastUpdate ≥ cycle_duration then
    let tl1 := s.light.togglePhase
    let tl2 := tl1.sendUpdate
    ({ light := tl2, lastUpdate := now2 },
      some { written := s.light._currentPhase.toggled
             sent := tl1._currentPhase
             polled := now
             reset := now2 })
  else
    (s, none)

/-- Finitely many passes through the loop of `cycleThroughPhases`, one for each
pair of clock readings, together with the flips they made, in order. -/
def TrafficLight.cycleLoop (ticksPerSecond cycle_duration : Int) :
    List (Int × Int) → CycleState → CycleState × List Emission
  | [], s => (s, [])
  | (now, now2) :: clock, s =>
    match TrafficLight.cycleIteration ticksPerSecond cycle_duration now now2 s with
    | (s1, none) => TrafficLight.cycleLoop ticksPerSecond cycle_duration clock s1
    | (s1, some e) =>
      ((TrafficLight.cycleLoop ticksPerSecond cycle_duration clock s1).1,
        e :: (TrafficLight.cycleLoop ticksPerSecond cycle_duration clock s1).2)

/-- The method `TrafficLight::cycleThroughPhases` (lines 89-146) with no concurrent
receiver: `cycle_duration` is the value drawn at line 99, `start` the clock
reading of line 110, and `clock` the readings of the passes through the loop
that are run. -/
def TrafficLight.cycleThroughPhases (ticksPerSecond cycle_duration start : Int)
    (clock : List (Int × Int)) (tl : TrafficLight) : CycleState × List Emission :=
  TrafficLight.cycleLoop ticksPerSecond cycle_duration clock { light := tl, lastUpdate := start }

/-- Two consecutive passes through the loop of `cycleThroughPhases`, each given
by its pair of clock readings, are paced with granularity `g`: the clock does
not go back (the reset reading of a pass lies between its poll and the next
poll), the next poll comes at most `g` ticks after the previous poll, and the
reset reading comes at most `g` ticks after the poll of its pass. -/
def Paced (g : Int) (a b : Int × Int) : Prop :=
  a.2 ≤ b.1 ∧ b.1 ≤ b.2 ∧ b.1 ≤ a.1 + g ∧ b.2 ≤ b.1 + g

instance Paced.decidable (g : Int) (a b : Int × Int) : Decidable (Paced g a b) :=
  inferInstanceAs (Decidable (a.2 ≤ b.1 ∧ b.1 ≤ b.2 ∧ b.1 ≤ a.1 + g ∧ b.2 ≤ b.1 + g))

/-- The list of `n` phases that starts with `p` and changes at every step. -/
def TrafficLightPhase.alternation (p : TrafficLightPhase) : Nat → List TrafficLightPhase
  | 0 => []
  | n + 1 => p :: TrafficLightPhase.alternation p.toggled n

/-- A step of the light with its two threads: the timer thread flips, or an
observer thread makes one pass through the loop of `waitForGreen`. -/
inductive LightStep where
  | timerFlip
  | observerPass
  deriving DecidableEq, Repr

/-- The effect of one step on the light. -/
def TrafficLight.act (tl : TrafficLight) : LightStep → TrafficLight
  | LightStep.timerFlip => tl.toggleAndSend
  | LightStep.observerPass => tl.waitForGreenIteration.2

/-- The light after a sequence of steps. -/
def TrafficLight.actAll (tl : TrafficLight) (acts : List LightStep) : TrafficLight :=
  acts.foldl TrafficLight.act tl

/-- The queue holds an alternating sequence whose most recent element is the
current phase: read from the tail, it is the alternation that starts with
`_currentPhase`. -/
def TrafficLight.QueueTracksPhase (tl : TrafficLight) : Prop :=
  tl._trafficQueue._queue.reverse
    = tl._currentPhase.alternation tl._trafficQueue._queue.length

/-! ## MessageQueue -/

theorem MessageQueue.sendAll_queue {T : Type} (msgs : List T) (q : MessageQueue T) :
    (q.sendAll msgs)._queue = q._queue ++ msgs := by
  induction msgs generalizing q with
  | nil => simp [MessageQueue.sendAll]
  | cons m ms ih =>
    have h := ih (q.send m)
    simp only [MessageQueue.sendAll, List.foldl_cons] at h ⊢
    rw [h]
    simp [MessageQueue.send]

theorem MessageQueue.receiveN_append {T : Type} (msgs rest : List T) :
    MessageQueue.receiveN msgs.length ({ _queue := msgs ++ rest } : MessageQueue T)
      = some (msgs, { _queue := rest }) := by
  induction msgs with
  | nil => simp [MessageQueue.receiveN]
  | cons m ms ih =>
    simp [MessageQueue.receiveN, MessageQueue.receive, ih]

/-- C1. Starting from an empty queue, `send(v1)`, ..., `send(vn)` followed by
`n` calls of `receive` returns exactly `v1, ..., vn` in that order and leaves
the queue empty. -/
theorem MessageQueue.fifo_send_then_receive {T : Type} (msgs : List T) :
    MessageQueue.receiveN msgs.length ((MessageQueue.empty : MessageQueue T).sendAll msgs)
      = some (msgs, MessageQueue.empty) := by
  have h : (MessageQueue.empty : MessageQueue T).sendAll msgs = { _queue := msgs ++ [] } := by
    have := MessageQueue.sendAll_queue msgs (MessageQueue.empty : MessageQueue T)
    cases hq : (MessageQueue.empty : MessageQueue T).sendAll msgs with
    | mk l =>
      rw [hq] at this
      simp [MessageQueue.empty] at this
      simp [this]
  rw [h]
  exact MessageQueue.receiveN_append msgs []

theorem QueueOp.run_conserves {T : Type} (ops : List (QueueOp T)) :
    ∀ (got : List T) (q : MessageQueue T) (got1 : List T) (q1 : MessageQueue T),
      QueueOp.run ops (got, q) = some (got1, q1) →
      got1 ++ q1._queue = got ++ q._queue ++ QueueOp.sent ops := by
  induction ops with
  | nil =>
    intro got q got1 q1 h
    simp [QueueOp.run] at h
    simp [QueueOp.sent, h.1, h.2]
  | cons op ops ih =>
    intro got q got1 q1 h
    cases op with
    | send msg =>
      simp only [QueueOp.run] at h
      have := ih _ _ _ _ h
      simp [this, MessageQueue.send, QueueOp.sent]
    | receive =>
      cases hq : q._queue with
      | nil =>
        simp [QueueOp.run, MessageQueue.receive, hq] at h
      | cons m rest =>
        simp only [QueueOp.run, MessageQueue.receive, hq] at h
        have := ih _ _ _ _ h
        simp [this, QueueOp.sent]

/-- C4. For every sequence of `send` and `receive` operations run on an
initially empty queue in which every `receive` finds the queue non-empty (the
run has a result), the values returned by the receives, in order, followed by
the values still in the queue, in order, are exactly the values sent, in
order. -/
theorem QueueOp.run_no_loss {T : Type} (ops : List (QueueOp T)) (got : List T)
    (q : MessageQueue T)
    (h : QueueOp.run ops ([], MessageQueue.empty) = some (got, q)) :
    got ++ q._queue = QueueOp.sent ops := by
  have := QueueOp.run_conserves ops [] MessageQueue.empty got q h
  simpa [MessageQueue.empty] using this

/-- Witness of C4: send 1, send 2, receive, send 3, receive. -/
theorem QueueOp.run_no_loss_witness :
    QueueOp.run [QueueOp.send 1, QueueOp.send 2, QueueOp.receive, QueueOp.send 3,
        QueueOp.receive] (([] : List Nat), MessageQueue.empty)
      = some ([1, 2], { _queue := [3] })
    ∧ [1, 2] ++ ({ _queue := [3] } : MessageQueue Nat)._queue
      = QueueOp.sent [QueueOp.send 1, QueueOp.send 2, QueueOp.receive, QueueOp.send 3,
        QueueOp.receive] :=
  ⟨by decide, QueueOp.run_no_loss _ _ _ (by decide)⟩

/-- C6. For every integer identifier, the constructed light reports `red` from
`getCurrentPhase` and its message queue is empty. -/
theorem TrafficLight.constructed_red_and_empty (intersectionID : Int) :
    (TrafficLight.construct intersectionID).getCurrentPhase = TrafficLightPhase.red
    ∧ (TrafficLight.construct intersectionID)._trafficQueue._queue = [] := by
  simp [TrafficLight.construct, TrafficLight.getCurrentPhase, MessageQueue.empty]

theorem MessageQueue.wakeups_empty {T : Type} (n : Nat) :
    MessageQueue.wakeups n (MessageQueue.empty : MessageQueue T) = MessageQueue.empty := by
  induction n with
  | zero => rfl
  | succ n ih => simpa [MessageQueue.wakeups, MessageQueue.receive, MessageQueue.empty] using ih

/-- C7. `receive` yields a value exactly when the queue is non-empty at the
evaluation of its wait predicate; when it yields none the queue is empty and
left as it was. On an empty queue it stays blocked however often the predicate
is evaluated again, and after a `send` the next evaluation returns the value
sent. -/
theorem MessageQueue.receive_blocks_until_send {T : Type} (q : MessageQueue T) (msg : T)
    (n : Nat) :
    (q.receive.1.isSome = true ↔ q._queue ≠ [])
    ∧ (q.receive.1 = none ↔ q._queue = [] ∧ q.receive.2 = q)
    ∧ (MessageQueue.wakeups n MessageQueue.empty).receive
        = ((none : Option T), MessageQueue.empty)
    ∧ ((MessageQueue.wakeups n MessageQueue.empty).send msg).receive
        = (some msg, MessageQueue.empty) := by
  refine ⟨?_, ?_, ?_, ?_⟩
  · cases hq : q._queue <;> simp [MessageQueue.receive, hq]
  · cases hq : q._queue <;> simp [MessageQueue.receive, hq]
  · rw [MessageQueue.wakeups_empty]
    rfl
  · rw [MessageQueue.wakeups_empty]
    rfl

/-! ## waitForGreen -/

theorem TrafficLight.waitForGreen_reds_then_green (intersectionID : Int)
    (phase : TrafficLightPhase) (post : List TrafficLightPhase) :
    ∀ (pre : List TrafficLightPhase), (∀ m ∈ pre, m = TrafficLightPhase.red) →
      ∀ fuel : Nat, pre.length + 1 ≤ fuel →
        TrafficLight.waitForGreen fuel
            { _intersectionID := intersectionID, _currentPhase := phase,
              _trafficQueue := { _queue := pre ++ TrafficLightPhase.green :: post } }
          = some { _intersectionID := intersectionID, _currentPhase := phase,
                   _trafficQueue := { _queue := post } } := by
  intro pre
  induction pre with
  | nil =>
    intro _ fuel hfuel
    obtain ⟨k, rfl⟩ : ∃ k, fuel = k + 1 := ⟨fuel - 1, by omega⟩
    simp [TrafficLight.waitForGreen, TrafficLight.waitForGreenIteration, MessageQueue.receive]
  | cons m ms ih =>
    intro hred fuel hfuel
    obtain ⟨k, rfl⟩ : ∃ k, fuel = k + 1 := ⟨fuel - 1, by omega⟩
    have hm : m = TrafficLightPhase.red := hred m (by simp)
    subst hm
    have hk : ms.length + 1 ≤ k := by simp at hfuel; omega
    have := ih (fun x hx => hred x (by simp [hx])) k hk
    simpa [TrafficLight.waitForGreen, TrafficLight.waitForGreenIteration,
      MessageQueue.receive] using this

theorem TrafficLightPhase.split_at_first_green (l : List TrafficLightPhase)
    (h : TrafficLightPhase.green ∈ l) :
    ∃ pre post, l = pre ++ TrafficLightPhase.green :: post
      ∧ ∀ m ∈ pre, m = TrafficLightPhase.red := by
  induction l with
  | nil => simp at h
  | cons x xs ih =>
    cases x with
    | green => exact ⟨[], xs, by simp, by simp⟩
    | red =>
      have hxs : TrafficLightPhase.green ∈ xs := by simpa using h
      obtain ⟨pre, post, hsplit, hred⟩ := ih hxs
      refine ⟨TrafficLightPhase.red :: pre, post, by simp [hsplit], ?_⟩
      intro m hm
      rcases List.mem_cons.mp hm with rfl | hm
      · rfl
      · exact hred m hm

/-- C2. When the queue contains a green, it splits as reds, the first green,
and a rest; `waitForGreen` returns (any fuel of at least the number of removed
elements suffices), and at its return exactly the reds and the first green have
been removed: the queue holds the rest in its original order, and the other
fields are untouched. -/
theorem TrafficLight.waitForGreen_returns_at_first_green (tl : TrafficLight)
    (h : TrafficLightPhase.green ∈ tl._trafficQueue._queue) :
    ∃ pre post, tl._trafficQueue._queue = pre ++ TrafficLightPhase.green :: post
      ∧ (∀ m ∈ pre, m = TrafficLightPhase.red)
      ∧ ∀ fuel : Nat, pre.length + 1 ≤ fuel →
          tl.waitForGreen fuel = some { tl with _trafficQueue := { _queue := post } } := by
  obtain ⟨pre, post, hsplit, hred⟩ := TrafficLightPhase.split_at_first_green _ h
  refine ⟨pre, post, hsplit, hred, ?_⟩
  intro fuel hfuel
  have := TrafficLight.waitForGreen_reds_then_green tl._intersectionID tl._currentPhase post
    pre hred fuel hfuel
  rw [← hsplit] at this
  exact this

/-- Witness of C2: the queue red, red, green, red, green. -/
theorem TrafficLight.waitForGreen_returns_at_first_green_witness :
    TrafficLightPhase.green ∈
        [TrafficLightPhase.red, TrafficLightPhase.red, TrafficLightPhase.green,
          TrafficLightPhase.red, TrafficLightPhase.green]
    ∧ ∃ pre post,
        [TrafficLightPhase.red, TrafficLightPhase.red, TrafficLightPhase.green,
          TrafficLightPhase.red, TrafficLightPhase.green]
          = pre ++ TrafficLightPhase.green :: post
      ∧ (∀ m ∈ pre, m = TrafficLightPhase.red)
      ∧ ∀ fuel : Nat, pre.length + 1 ≤ fuel →
          TrafficLight.waitForGreen fuel
            { _intersectionID := 7, _currentPhase := TrafficLightPhase.green,
              _trafficQueue := { _queue :=
                [TrafficLightPhase.red, TrafficLightPhase.red, TrafficLightPhase.green,
                  TrafficLightPhase.red, TrafficLightPhase.green] } }
            = some { _intersectionID := 7, _currentPhase := TrafficLightPhase.green,
                     _trafficQueue := { _queue := post } } :=
  ⟨by decide,
    TrafficLight.waitForGreen_returns_at_first_green
      { _intersectionID := 7, _currentPhase := TrafficLightPhase.green,
        _trafficQueue := { _queue :=
          [TrafficLightPhase.red, TrafficLightPhase.red, TrafficLightPhase.green,
            TrafficLightPhase.red, TrafficLightPhase.green] } }
      (by decide)⟩

/-! ## cycleThroughPhases: the values written and sent -/

theorem TrafficLightPhase.toggled_toggled (p : TrafficLightPhase) : p.toggled.toggled = p := by
  cases p <;> rfl

theorem TrafficLightPhase.toggled_ne (p : TrafficLightPhase) : p.toggled ≠ p := by
  cases p <;> decide

theorem TrafficLightPhase.alternation_length (n : Nat) :
    ∀ p : TrafficLightPhase, (p.alternation n).length = n := by
  induction n with
  | zero => intro p; rfl
  | succ n ih => intro p; simp [TrafficLightPhase.alternation, ih]

theorem TrafficLightPhase.alternation_eq_map_range (n : Nat) :
    ∀ p : TrafficLightPhase,
      p.alternation n = (List.range n).map (fun i => if i % 2 = 0 then p else p.toggled) := by
  induction n with
  | zero => intro p; rfl
  | succ n ih =>
    intro p
    rw [TrafficLightPhase.alternation, ih, List.range_succ_eq_map]
    simp only [List.map_cons, List.map_map, Nat.zero_mod, if_true]
    congr 1
    apply List.map_congr_left
    intro i _
    simp only [Function.comp, TrafficLightPhase.toggled_toggled]
    rcases Nat.mod_two_eq_zero_or_one i with hi | hi
    · have : (i + 1) % 2 = 1 := by omega
      simp [hi, this]
    · have : (i + 1) % 2 = 0 := by omega
      simp [hi, this]

theorem TrafficLightPhase.alternation_chain (n : Nat) :
    ∀ p : TrafficLightPhase, List.Chain' (fun a b => a ≠ b) (p.alternation n) := by
  induction n with
  | zero => intro p; simp [TrafficLightPhase.alternation]
  | succ n ih =>
    intro p
    cases n with
    | zero => simp [TrafficLightPhase.alternation]
    | succ k =>
      have hrest : List.Chain' (fun a b => a ≠ b)
          (p.toggled :: p.toggled.toggled.alternation k) := ih p.toggled
      show List.Chain' (fun a b => a ≠ b)
        (p :: p.toggled :: p.toggled.toggled.alternation k)
      exact List.Chain'.cons (fun h => TrafficLightPhase.toggled_ne p h.symm) hrest

theorem TrafficLight.cycleIteration_flip (ticksPerSecond cycle_duration now now2 : Int)
    (s : CycleState) (h : cycle_duration ≤ (now - s.lastUpdate).tdiv ticksPerSecond) :
    TrafficLight.cycleIteration ticksPerSecond cycle_duration now now2 s
      = ({ light := s.light.toggleAndSend, lastUpdate := now2 },
          some { written := s.light._currentPhase.toggled
                 sent := s.light._currentPhase.toggled
                 polled := now
                 reset := now2 }) := by
  simp [TrafficLight.cycleIteration, h, TrafficLight.toggleAndSend, TrafficLight.togglePhase]

theorem TrafficLight.cycleIteration_idle (ticksPerSecond cycle_duration now now2 : Int)
    (s : CycleState) (h : ¬ cycle_duration ≤ (now - s.lastUpdate).tdiv ticksPerSecond) :
    TrafficLight.cycleIteration ticksPerSecond cycle_duration now now2 s = (s, none) := by
  simp [TrafficLight.cycleIteration, h]

theorem TrafficLight.cycleLoop_flip (ticksPerSecond cycle_duration now now2 : Int)
    (clock : List (Int × Int)) (s : CycleState)
    (h : cycle_duration ≤ (now - s.lastUpdate).tdiv ticksPerSecond) :
    TrafficLight.cycleLoop ticksPerSecond cycle_duration ((now, now2) :: clock) s
      = ((TrafficLight.cycleLoop ticksPerSecond cycle_duration clock
            { light := s.light.toggleAndSend, lastUpdate := now2 }).1,
          { written := s.light._currentPhase.toggled
            sent := s.light._currentPhase.toggled
            polled := now
            reset := now2 } ::
          (TrafficLight.cycleLoop ticksPerSecond cycle_duration clock
            { light := s.light.toggleAndSend, lastUpdate := now2 }).2) := by
  rw [TrafficLight.cycleLoop, TrafficLight.cycleIteration_flip _ _ _ _ _ h]

theorem TrafficLight.cycleLoop_idle (ticksPerSecond cycle_duration now now2 : Int)
    (clock : List (Int × Int)) (s : CycleState)
    (h : ¬ cycle_duration ≤ (now - s.lastUpdate).tdiv ticksPerSecond) :
    TrafficLight.cycleLoop ticksPerSecond cycle_duration ((now, now2) :: clock) s
      = TrafficLight.cycleLoop ticksPerSecond cycle_duration clock s := by
  rw [TrafficLight.cycleLoop, TrafficLight.cycleIteration_idle _ _ _ _ _ h]

theorem TrafficLight.toggleAndSend_phase (tl : TrafficLight) :
    tl.toggleAndSend._currentPhase = tl._currentPhase.toggled := rfl

theorem TrafficLight.toggleAndSend_queue (tl : TrafficLight) :
    tl.toggleAndSend._trafficQueue._queue
      = tl._trafficQueue._queue ++ [tl._currentPhase.toggled] := rfl

theorem TrafficLight.cycleLoop_sent_eq_written (ticksPerSecond cycle_duration : Int)
    (clock : List (Int × Int)) :
    ∀ s : CycleState,
      (TrafficLight.cycleLoop ticksPerSecond cycle_duration clock s).2.map Emission.sent
        = (TrafficLight.cycleLoop ticksPerSecond cycle_duration clock s).2.map
            Emission.written := by
  induction clock with
  | nil => intro s; simp [TrafficLight.cycleLoop]
  | cons c clock ih =>
    intro s
    obtain ⟨now, now2⟩ := c
    by_cases h : cycle_duration ≤ (now - s.lastUpdate).tdiv ticksPerSecond
    · rw [TrafficLight.cycleLoop_flip _ _ _ _ _ _ h]
      simp [ih]
    · rw [TrafficLight.cycleLoop_idle _ _ _ _ _ _ h]
      exact ih s

theorem TrafficLight.cycleLoop_queue (ticksPerSecond cycle_duration : Int)
    (clock : List (Int × Int)) :
    ∀ s : CycleState,
      (TrafficLight.cycleLoop ticksPerSecond cycle_duration clock s).1.light._trafficQueue._queue
        = s.light._trafficQueue._queue
          ++ (TrafficLight.cycleLoop ticksPerSecond cycle_duration clock s).2.map
              Emission.written := by
  induction clock with
  | nil => intro s; simp [TrafficLight.cycleLoop]
  | cons c clock ih =>
    intro s
    obtain ⟨now, now2⟩ := c
    by_cases h : cycle_duration ≤ (now - s.lastUpdate).tdiv ticksPerSecond
    · rw [TrafficLight.cycleLoop_flip _ _ _ _ _ _ h]
      simp [ih, TrafficLight.toggleAndSend_queue]
    · rw [TrafficLight.cycleLoop_idle _ _ _ _ _ _ h]
      exact ih s

theorem TrafficLight.cycleLoop_sent_alternation (ticksPerSecond cycle_duration : Int)
    (clock : List (Int × Int)) :
    ∀ s : CycleState,
      (TrafficLight.cycleLoop ticksPerSecond cycle_duration clock s).2.map Emission.sent
        = s.light._currentPhase.toggled.alternation
            ((TrafficLight.cycleLoop ticksPerSecond cycle_duration clock s).2.map
              Emission.sent).length := by
  induction clock with
  | nil => intro s; simp [TrafficLight.cycleLoop, TrafficLightPhase.alternation]
  | cons c clock ih =>
    intro s
    obtain ⟨now, now2⟩ := c
    by_cases h : cycle_duration ≤ (now - s.lastUpdate).tdiv ticksPerSecond
    · rw [TrafficLight.cycleLoop_flip _ _ _ _ _ _ h]
      have := ih { light := s.light.toggleAndSend, lastUpdate := now2 }
      simp only [TrafficLight.toggleAndSend_phase] at this
      simp only [List.map_cons, List.length_cons, TrafficLightPhase.alternation]
      rw [← this]
    · rw [TrafficLight.cycleLoop_idle _ _ _ _ _ _ h]
      exact ih s

/-- C3. For a newly constructed light driven by one `cycleThroughPhases` loop
(any tick rate, cycle duration and clock readings), the values passed to
`send` are green, red, green, ... in that order: the value number `i` (from 0)
is green for even `i` and red for odd `i`, no two consecutive values are equal,
and with no receiver they are exactly the contents of the queue. -/
theorem TrafficLight.cycle_sends_alternate (ticksPerSecond cycle_duration start : Int)
    (clock : List (Int × Int)) (intersectionID : Int) :
    (TrafficLight.cycleThroughPhases ticksPerSecond cycle_duration start clock
        (TrafficLight.construct intersectionID)).2.map Emission.sent
      = (List.range
          ((TrafficLight.cycleThroughPhases ticksPerSecond cycle_duration start clock
            (TrafficLight.construct intersectionID)).2.map Emission.sent).length).map
          (fun i => if i % 2 = 0 then TrafficLightPhase.green else TrafficLightPhase.red)
    ∧ List.Chain' (fun a b => a ≠ b)
        ((TrafficLight.cycleThroughPhases ticksPerSecond cycle_duration start clock
          (TrafficLight.construct intersectionID)).2.map Emission.sent)
    ∧ (TrafficLight.cycleThroughPhases ticksPerSecond cycle_duration start clock
        (TrafficLight.construct intersectionID)).1.light._trafficQueue._queue
      = (TrafficLight.cycleThroughPhases ticksPerSecond cycle_duration start clock
          (TrafficLight.construct intersectionID)).2.map Emission.sent := by
  have halt := TrafficLight.cycleLoop_sent_alternation ticksPerSecond cycle_duration clock
    { light := TrafficLight.construct intersectionID, lastUpdate := start }
  have hq := TrafficLight.cycleLoop_queue ticksPerSecond cycle_duration clock
    { light := TrafficLight.construct intersectionID, lastUpdate := start }
  have hw := TrafficLight.cycleLoop_sent_eq_written ticksPerSecond cycle_duration clock
    { light := TrafficLight.construct intersectionID, lastUpdate := start }
  have hgreen : (TrafficLight.construct intersectionID)._currentPhase.toggled
      = TrafficLightPhase.green := rfl
  simp only [hgreen] at halt
  unfold TrafficLight.cycleThroughPhases
  refine ⟨?_, ?_, ?_⟩
  · have h2 := TrafficLightPhase.alternation_eq_map_range
      ((TrafficLight.cycleLoop ticksPerSecond cycle_duration clock
        { light := TrafficLight.construct intersectionID, lastUpdate := start }).2.map
          Emission.sent).length TrafficLightPhase.green
    rw [← halt] at h2
    exact h2
  · rw [halt]
    exact TrafficLightPhase.alternation_chain _ _
  · rw [hq, hw]
    simp [TrafficLight.construct, MessageQueue.empty]

/-- C9. One pass through the loop of `cycleThroughPhases`: when the elapsed
time since `lastUpdate`, truncated to whole seconds, is at least the cycle
duration, the phase is toggled (red becomes green, green becomes red), the new
phase is appended at the tail of the queue and `lastUpdate` is reset to the
fresh clock reading; otherwise the phase, the queue and `lastUpdate` are all
unchanged. The phase changes exactly in the first case. -/
theorem TrafficLight.cycleIteration_flips_iff_elapsed
    (ticksPerSecond cycle_duration now now2 : Int) (s : CycleState) :
    (TrafficLight.cycleIteration ticksPerSecond cycle_duration now now2 s).1
      = (if cycle_duration ≤ (now - s.lastUpdate).tdiv ticksPerSecond then
          { light :=
              { _intersectionID := s.light._intersectionID
                _currentPhase := s.light._currentPhase.toggled
                _trafficQueue :=
                  { _queue := s.light._trafficQueue._queue ++ [s.light._currentPhase.toggled] } }
            lastUpdate := now2 }
        else s)
    ∧ ((TrafficLight.cycleIteration ticksPerSecond cycle_duration now now2
          s).1.light._currentPhase ≠ s.light._currentPhase
        ↔ cycle_duration ≤ (now - s.lastUpdate).tdiv ticksPerSecond)
    ∧ ((TrafficLight.cycleIteration ticksPerSecond cycle_duration now now2
          s).1.light._trafficQueue._queue ≠ s.light._trafficQueue._queue
        ↔ cycle_duration ≤ (now - s.lastUpdate).tdiv ticksPerSecond)
    ∧ TrafficLightPhase.red.toggled = TrafficLightPhase.green
    ∧ TrafficLightPhase.green.toggled = TrafficLightPhase.red := by
  by_cases h : cycle_duration ≤ (now - s.lastUpdate).tdiv ticksPerSecond
  · rw [TrafficLight.cycleIteration_flip _ _ _ _ _ h]
    simp only [h, if_true, TrafficLight.toggleAndSend_phase, TrafficLight.toggleAndSend_queue]
    refine ⟨rfl, ?_, ?_, rfl, rfl⟩
    · simp [TrafficLightPhase.toggled_ne]
    · simp
  · rw [TrafficLight.cycleIteration_idle _ _ _ _ _ h]
    simp [h, TrafficLightPhase.toggled]

/-! ## The queue and the current phase under flips and waitForGreen -/

theorem TrafficLightPhase.alternation_succ_last (n : Nat) :
    ∀ p : TrafficLightPhase,
      p.alternation (n + 1) = p.alternation n ++ [if n % 2 = 0 then p else p.toggled] := by
  induction n with
  | zero => intro p; rfl
  | succ n ih =>
    intro p
    have h := ih p.toggled
    show p :: p.toggled.alternation (n + 1) = p :: p.toggled.alternation n ++ _
    rw [h, TrafficLightPhase.toggled_toggled]
    rcases Nat.mod_two_eq_zero_or_one n with hn | hn
    · have : (n + 1) % 2 = 1 := by omega
      simp [hn, this]
    · have : (n + 1) % 2 = 0 := by omega
      simp [hn, this]

theorem TrafficLight.queueTracksPhase_construct (intersectionID : Int) :
    (TrafficLight.construct intersectionID).QueueTracksPhase := by
  simp [TrafficLight.QueueTracksPhase, TrafficLight.construct, MessageQueue.empty,
    TrafficLightPhase.alternation]

theorem TrafficLight.queueTracksPhase_toggleAndSend (tl : TrafficLight)
    (h : tl.QueueTracksPhase) : tl.toggleAndSend.QueueTracksPhase := by
  unfold TrafficLight.QueueTracksPhase at h ⊢
  rw [TrafficLight.toggleAndSend_queue, TrafficLight.toggleAndSend_phase]
  simp only [List.reverse_append, List.reverse_cons, List.reverse_nil, List.nil_append,
    List.singleton_append, List.length_append, List.length_singleton]
  rw [TrafficLightPhase.alternation, TrafficLightPhase.toggled_toggled, h]

theorem TrafficLight.queueTracksPhase_pop (intersectionID : Int) (phase m : TrafficLightPhase)
    (rest : List TrafficLightPhase)
    (h : TrafficLight.QueueTracksPhase
      { _intersectionID := intersectionID, _currentPhase := phase,
        _trafficQueue := { _queue := m :: rest } }) :
    TrafficLight.QueueTracksPhase
      { _intersectionID := intersectionID, _currentPhase := phase,
        _trafficQueue := { _queue := rest } }
    ∧ m = (if rest.length % 2 = 0 then phase else phase.toggled) := by
  unfold TrafficLight.QueueTracksPhase at h ⊢
  simp only [List.reverse_cons, List.length_cons] at h
  rw [TrafficLightPhase.alternation_succ_last] at h
  have hlen : rest.reverse.length = (phase.alternation rest.length).length := by
    simp [TrafficLightPhase.alternation_length]
  obtain ⟨h1, h2⟩ := List.append_inj h hlen
  exact ⟨h1, by simpa using h2⟩

theorem TrafficLight.queueTracksPhase_waitForGreenIteration (tl : TrafficLight)
    (h : tl.QueueTracksPhase) : tl.waitForGreenIteration.2.QueueTracksPhase := by
  obtain ⟨intersectionID, phase, ⟨queue⟩⟩ := tl
  cases queue with
  | nil => simpa [TrafficLight.waitForGreenIteration, MessageQueue.receive] using h
  | cons m rest =>
    have hpop := (TrafficLight.queueTracksPhase_pop intersectionID phase m rest h).1
    by_cases hm : m = TrafficLightPhase.green
    · simpa [TrafficLight.waitForGreenIteration, MessageQueue.receive, hm] using hpop
    · simpa [TrafficLight.waitForGreenIteration, MessageQueue.receive, hm] using hpop

theorem TrafficLight.queueTracksPhase_actAll (acts : List LightStep) :
    ∀ tl : TrafficLight, tl.QueueTracksPhase → (tl.actAll acts).QueueTracksPhase := by
  induction acts with
  | nil => intro tl h; exact h
  | cons a acts ih =>
    intro tl h
    have hstep : (tl.act a).QueueTracksPhase := by
      cases a with
      | timerFlip => exact TrafficLight.queueTracksPhase_toggleAndSend tl h
      | observerPass => exact TrafficLight.queueTracksPhase_waitForGreenIteration tl h
    exact ih (tl.act a) hstep

theorem TrafficLight.returned_phase_iff_even (tl : TrafficLight) (h : tl.QueueTracksPhase)
    (hret : tl.waitForGreenIteration.1 = WaitOutcome.returned) :
    tl.waitForGreenIteration.2.getCurrentPhase = TrafficLightPhase.green
      ↔ tl.waitForGreenIteration.2._trafficQueue._queue.length % 2 = 0 := by
  obtain ⟨intersectionID, phase, ⟨queue⟩⟩ := tl
  cases queue with
  | nil => simp [TrafficLight.waitForGreenIteration, MessageQueue.receive] at hret
  | cons m rest =>
    have hpop := (TrafficLight.queueTracksPhase_pop intersectionID phase m rest h).2
    by_cases hm : m = TrafficLightPhase.green
    · subst hm
      simp only [TrafficLight.waitForGreenIteration, MessageQueue.receive, if_true,
        TrafficLight.getCurrentPhase]
      rcases Nat.mod_two_eq_zero_or_one rest.length with hn | hn
      · simp only [hn, if_true] at hpop
        simp [hn, ← hpop]
      · have hne : ¬ rest.length % 2 = 0 := by omega
        simp only [hne, if_false] at hpop
        cases phase with
        | red => simp [hne]
        | green => simp [TrafficLightPhase.toggled] at hpop
    · simp [TrafficLight.waitForGreenIteration, MessageQueue.receive, hm] at hret

/-- C10, amended. In every state reached from a newly constructed light by a
sequence of timer flips and passes of `waitForGreen`, when the next pass of
`waitForGreen` returns, `getCurrentPhase` returns green exactly when the number
of values still in the queue is even. -/
theorem TrafficLight.green_at_return_iff_even_backlog (intersectionID : Int)
    (acts : List LightStep)
    (hret : ((TrafficLight.construct intersectionID).actAll acts).waitForGreenIteration.1
      = WaitOutcome.returned) :
    ((TrafficLight.construct intersectionID).actAll acts).waitForGreenIteration.2.getCurrentPhase
        = TrafficLightPhase.green
      ↔ ((TrafficLight.construct intersectionID).actAll
          acts).waitForGreenIteration.2._trafficQueue._queue.length % 2 = 0 :=
  TrafficLight.returned_phase_iff_even _
    (TrafficLight.queueTracksPhase_actAll acts _
      (TrafficLight.queueTracksPhase_construct intersectionID)) hret

/-- Witness of the amended C10: flip, flip, flip, then a pass that returns on
the first green with red, green left in the queue. -/
theorem TrafficLight.green_at_return_iff_even_backlog_witness :
    ((TrafficLight.construct 3).actAll
        [LightStep.timerFlip, LightStep.timerFlip, LightStep.timerFlip]).waitForGreenIteration.1
      = WaitOutcome.returned
    ∧ (((TrafficLight.construct 3).actAll
        [LightStep.timerFlip, LightStep.timerFlip,
          LightStep.timerFlip]).waitForGreenIteration.2.getCurrentPhase
        = TrafficLightPhase.green
      ↔ ((TrafficLight.construct 3).actAll
          [LightStep.timerFlip, LightStep.timerFlip,
            LightStep.timerFlip]).waitForGreenIteration.2._trafficQueue._queue.length % 2 = 0) :=
  ⟨by decide, TrafficLight.green_at_return_iff_even_backlog 3 _ (by decide)⟩

/-- C10 as stated fails: construct the light, let the timer flip twice (green,
then red, both queued), then call `waitForGreen`. Its first pass receives the
queued green and the call returns, while `getCurrentPhase` returns red. -/
theorem TrafficLight.red_at_return_after_two_flips :
    ((TrafficLight.construct 0).actAll
        [LightStep.timerFlip, LightStep.timerFlip]).waitForGreenIteration.1
      = WaitOutcome.returned
    ∧ ((TrafficLight.construct 0).actAll [LightStep.timerFlip, LightStep.timerFlip]).waitForGreen 1
      = some { _intersectionID := 0, _currentPhase := TrafficLightPhase.red,
               _trafficQueue := { _queue := [TrafficLightPhase.red] } }
    ∧ TrafficLight.getCurrentPhase
        { _intersectionID := 0, _currentPhase := TrafficLightPhase.red,
          _trafficQueue := { _queue := [TrafficLightPhase.red] } }
      = TrafficLightPhase.red
    ∧ TrafficLightPhase.red ≠ TrafficLightPhase.green := by
  decide

/-! ## cycleThroughPhases: the time between two flips -/

